import Mathlib

/-!
Verification of the atask repository's filter/query core.

The development shallowly embeds, from `internal/denote` (part_003,
scanner.go, update.go), the calendar-date helpers (`IsOverdue`,
`IsDueSoon`, `DaysUntilDue`, `IsDueThisWeek`), task filtering
(`FilterTasks`), and estimate validation (`IsValidEstimate`,
`UpdateTaskEstimate`).  The `internal/query` package (lexer, parser,
field registry, evaluator) is not present in the repository sources,
only its call sites are; those components are modelled from the spec
and are marked as such in their doc comments.

Go's `time` values are modelled by `Instant`: a civil calendar date
plus a minute-of-day.  Every date helper in the source truncates the
current time to midnight (`time.Date(y, m, d, 0, 0, 0, 0, loc)`)
before comparing, which the embedding mirrors by reading only the
`date` component of the `Instant`.
-/

/-- Gregorian leap-year test, as computed by Go's `time` package. -/
def isLeap (y : Nat) : Bool :=
  y % 4 == 0 && (y % 100 != 0 || y % 400 == 0)

/-- Length of a month (1..12) in year `y`; 0 for out-of-range months. -/
def daysInMonth (y m : Nat) : Nat :=
  match m with
  | 1 => 31
  | 2 => if isLeap y then 29 else 28
  | 3 => 31
  | 4 => 30
  | 5 => 31
  | 6 => 30
  | 7 => 31
  | 8 => 31
  | 9 => 30
  | 10 => 31
  | 11 => 30
  | 12 => 31
  | _ => 0

/-- A civil calendar date (proleptic Gregorian, year 0 onwards). -/
structure CivDate where
  year : Nat
  month : Nat
  day : Nat
deriving DecidableEq, Repr

/-- A date whose month and day are in range (what Go's strict
`time.Parse` validation guarantees). -/
def CivDate.Valid (d : CivDate) : Prop :=
  1 ≤ d.month ∧ d.month ≤ 12 ∧ 1 ≤ d.day ∧ d.day ≤ daysInMonth d.year d.month

instance (d : CivDate) : Decidable d.Valid := by
  unfold CivDate.Valid; infer_instance

/-- Chronological (lexicographic) strict order on calendar dates:
`d₁` denotes an earlier calendar day than `d₂`. -/
def CivDate.before (d₁ d₂ : CivDate) : Prop :=
  d₁.year < d₂.year ∨
    (d₁.year = d₂.year ∧
      (d₁.month < d₂.month ∨ (d₁.month = d₂.month ∧ d₁.day < d₂.day)))

instance (d₁ d₂ : CivDate) : Decidable (d₁.before d₂) := by
  unfold CivDate.before; infer_instance

/-- Days in the whole year `y`. -/
def daysInYear (y : Nat) : Nat :=
  365 + (if isLeap y then 1 else 0)

/-- Number of days strictly before year `y` counted from 0000-01-01
(year 0 is a leap year in the proleptic Gregorian calendar). -/
def daysBeforeYear (y : Nat) : Nat :=
  365 * y + (y + 3) / 4 + (y + 399) / 400 - (y + 99) / 100

/-- Number of days of year `y` strictly before month `m`. -/
def daysBeforeMonth (y m : Nat) : Nat :=
  let leapAdd := if isLeap y then 1 else 0
  match m with
  | 1 => 0
  | 2 => 31
  | 3 => 59 + leapAdd
  | 4 => 90 + leapAdd
  | 5 => 120 + leapAdd
  | 6 => 151 + leapAdd
  | 7 => 181 + leapAdd
  | 8 => 212 + leapAdd
  | 9 => 243 + leapAdd
  | 10 => 273 + leapAdd
  | 11 => 304 + leapAdd
  | 12 => 334 + leapAdd
  | _ => 0

/-- Linear day number of a calendar date (days since 0000-01-01).
This is the quantity Go's `time` arithmetic on midnights computes
differences of. -/
def toDays (d : CivDate) : Nat :=
  daysBeforeYear d.year + daysBeforeMonth d.year d.month + (d.day - 1)

/-- The value of a decimal digit character, `none` otherwise. -/
def digitVal (c : Char) : Option Nat :=
  if c.isDigit then some (c.toNat - 48) else none

/-- Embedding of Go's `time.ParseInLocation("2006-01-02", s, loc)`
restricted to the calendar-date fields: exactly `YYYY-MM-DD`, all
digits, month in 1..12 and day in 1..daysInMonth (Go rejects
out-of-range components with "month/day out of range"). -/
def parseDate (s : String) : Option CivDate :=
  match s.toList with
  | [y1, y2, y3, y4, h1, m1, m2, h2, d1, d2] =>
    if h1 = '-' ∧ h2 = '-' then do
      let vy1 ← digitVal y1
      let vy2 ← digitVal y2
      let vy3 ← digitVal y3
      let vy4 ← digitVal y4
      let vm1 ← digitVal m1
      let vm2 ← digitVal m2
      let vd1 ← digitVal d1
      let vd2 ← digitVal d2
      let y := ((vy1 * 10 + vy2) * 10 + vy3) * 10 + vy4
      let m := vm1 * 10 + vm2
      let d := vd1 * 10 + vd2
      if 1 ≤ m ∧ m ≤ 12 ∧ 1 ≤ d ∧ d ≤ daysInMonth y m then
        some ⟨y, m, d⟩
      else
        none
    else none
  | _ => none

/-- Left-pad a numeral to two digits, as Go's `Format("01")`/`("02")`. -/
def pad2 (n : Nat) : String :=
  if n < 10 then "0" ++ toString n else toString n

/-- Left-pad a numeral to four digits, as Go's `Format("2006")`. -/
def pad4 (n : Nat) : String :=
  if n < 10 then "000" ++ toString n
  else if n < 100 then "00" ++ toString n
  else if n < 1000 then "0" ++ toString n
  else toString n

/-- Embedding of Go's `t.Format("2006-01-02")` on a civil date. -/
def formatCivDate (d : CivDate) : String :=
  pad4 d.year ++ "-" ++ pad2 d.month ++ "-" ++ pad2 d.day

/-- A moment of Go wall-clock time (`time.Now()`): the civil calendar
day it falls on plus the minute of that day.  The date helpers below
truncate to midnight, i.e. read only `date`. -/
structure Instant where
  date : CivDate
  minute : Nat
deriving DecidableEq, Repr

/-- Embedding of `denote.IsOverdue` (part_003): empty string and
parse failures yield `false`; otherwise compare the midnight of the
due date with the midnight of `now` (`dueStart.Before(nowStart)`). -/
def IsOverdue (now : Instant) (dueDateStr : String) : Bool :=
  if dueDateStr = "" then false
  else
    match parseDate dueDateStr with
    | none => false
    | some dueDate => decide (toDays dueDate < toDays now.date)

/-- Embedding of `denote.IsDueSoon` (part_003): whole days between
the two midnights (`int(dueStart.Sub(nowStart).Hours() / 24)`, exact
here since both are midnights), then `daysUntil >= 0 && daysUntil <=
horizonDays`. -/
def IsDueSoon (now : Instant) (dueDateStr : String) (horizonDays : Int) : Bool :=
  if dueDateStr = "" then false
  else
    match parseDate dueDateStr with
    | none => false
    | some dueDate =>
      let daysUntil : Int :=
        (24 * (toDays dueDate : Int) - 24 * (toDays now.date : Int)) / 24
      decide (0 ≤ daysUntil ∧ daysUntil ≤ horizonDays)

/-- Embedding of `denote.DaysUntilDue` (part_003): 0 for the empty
string and for parse failures, otherwise the whole-day difference of
the two midnights. -/
def DaysUntilDue (now : Instant) (dueDateStr : String) : Int :=
  if dueDateStr = "" then 0
  else
    match parseDate dueDateStr with
    | none => 0
    | some dueDate =>
      (24 * (toDays dueDate : Int) - 24 * (toDays now.date : Int)) / 24

/-- Embedding of `denote.IsDueThisWeek` (part_003):
`days := DaysUntilDue(s); days >= 0 && days <= 7`. -/
def IsDueThisWeek (now : Instant) (dueDateStr : String) : Bool :=
  let days := DaysUntilDue now dueDateStr
  decide (0 ≤ days ∧ days ≤ 7)

/-- Embedding of `denote.IsValidEstimate` (part_003): membership in
the Fibonacci list `{1, 2, 3, 5, 8, 13}`. -/
def IsValidEstimate (estimate : Int) : Bool :=
  ([1, 2, 3, 5, 8, 13] : List Int).any (fun v => estimate == v)

namespace Denote

/-- The fields of `denote.Task` (acore.Entity + TaskMetadata,
part_003) that `FilterTasks` and the update functions read or write. -/
structure Task where
  status : String
  priority : String
  dueDate : String
  startDate : String
  estimate : Int
  projectId : String
  area : String
deriving DecidableEq, Repr

/-- Embedding of `denote.FilterTasks` (scanner.go).  Each `case`
appends the matching tasks in input order, which is `List.filter`;
the missing `default` case leaves `filtered` as its zero value, the
empty list.  The `"today"` case compares the due-date string with
`time.Now().Format("2006-01-02")`. -/
def FilterTasks (now : Instant) (tasks : List Task)
    (filterType : String) (filterValue : String) : List Task :=
  match filterType with
  | "all" => tasks
  | "open" => tasks.filter (fun t => t.status == "open")
  | "done" => tasks.filter (fun t => t.status == "done")
  | "active" =>
    tasks.filter (fun t =>
      t.status == "open" || t.status == "paused" || t.status == "delegated")
  | "area" => tasks.filter (fun t => t.area == filterValue)
  | "project" => tasks.filter (fun t => t.projectId == filterValue)
  | "overdue" =>
    tasks.filter (fun t =>
      t.dueDate != "" && IsOverdue now t.dueDate && t.status != "done")
  | "today" =>
    tasks.filter (fun t =>
      t.dueDate == formatCivDate now.date && t.status != "done")
  | "week" =>
    tasks.filter (fun t =>
      t.dueDate != "" && IsDueThisWeek now t.dueDate && t.status != "done")
  | "priority" => tasks.filter (fun t => t.priority == filterValue)
  | _ => []

/-- Embedding of `denote.UpdateTaskEstimate` (update.go).  File I/O
is abstracted: the already-parsed task (`ParseTaskFile`'s result) is
passed as an `Option`, and a successful run returns the task whose
frontmatter would be rewritten.  The validation gate runs before the
file is touched: a non-zero estimate outside the Fibonacci set is an
error. -/
def UpdateTaskEstimate (parsedTask : Option Task) (estimate : Int) :
    Except String Task :=
  if estimate != 0 && !IsValidEstimate estimate then
    .error "invalid estimate (must be 0, 1, 2, 3, 5, 8, or 13)"
  else
    match parsedTask with
    | none => .error "failed to parse task"
    | some t => .ok { t with estimate := estimate }

end Denote

/-- Modelled from the spec: the query package `internal/query`
(imported by scanner.go but absent from the sources) defines the
comparison operators; spec section 3 fixes `Operator ∈ {Eq, NotEq,
Gt, Lt}`. -/
inductive Operator where
  | eq
  | neq
  | gt
  | lt
deriving DecidableEq, Repr

/-- Modelled from the spec: the missing query package's AST, a
closed tagged union over conjunction, disjunction, negation and leaf
comparison (spec section 3). -/
inductive Expr where
  | and (left : Expr) (right : Expr)
  | or (left : Expr) (right : Expr)
  | not (inner : Expr)
  | comparison (field : String) (op : Operator) (value : String)
deriving DecidableEq, Repr

/-- Modelled from the spec: the missing query package's semantic
kind tags for registered fields (spec section 4.3). -/
inductive FieldKind where
  | exactString
  | date
  | numeric
  | tagSet
  | fullText
deriving DecidableEq, Repr

/-- Modelled from the spec: a Field Registry entry - semantic kind
plus the allowed operator subset (spec section 3). -/
structure FieldSpec where
  kind : FieldKind
  ops : List Operator
deriving DecidableEq, Repr

/-- Modelled from the spec: the missing query package's static Field
Registry, from the table in spec section 4.3. -/
def lookupField (name : String) : Option FieldSpec :=
  match name with
  | "status" | "priority" | "area" | "assignee" | "recur" | "project-id" =>
    some ⟨.exactString, [.eq, .neq]⟩
  | "due-date" | "start-date" =>
    some ⟨.date, [.eq, .neq]⟩
  | "estimate" | "index-id" =>
    some ⟨.numeric, [.eq, .neq, .gt, .lt]⟩
  | "tag" | "tags" =>
    some ⟨.tagSet, [.eq]⟩
  | "content" | "body" | "text" | "title" =>
    some ⟨.fullText, [.eq]⟩
  | _ => none

/-- Modelled from the spec: the RecordView accessor surface the
missing evaluator queries per field (spec section 3) - string
accessors, date-string accessors, integer accessors, and the tag
set. -/
structure RecordView where
  status : String
  priority : String
  area : String
  assignee : String
  recur : String
  projectId : String
  title : String
  content : String
  dueDate : String
  startDate : String
  estimate : Int
  indexId : Int
  tags : List String
deriving DecidableEq, Repr

/-- Modelled from the spec: ambient evaluation configuration - the
"due soon" horizon in days (spec section 3). -/
structure EvalConfig where
  soonHorizon : Int
deriving DecidableEq, Repr

/-- Whether `hay` starts with `needle`. -/
def startsWithL (needle hay : List Char) : Bool :=
  match needle, hay with
  | [], _ => true
  | _ :: _, [] => false
  | n :: ns, h :: hs => n == h && startsWithL ns hs

/-- Whether `needle` occurs as a contiguous run inside `hay`. -/
def substrAux (needle hay : List Char) : Bool :=
  startsWithL needle hay ||
    match hay with
    | [] => false
    | _ :: hs => substrAux needle hs

/-- ASCII lowercasing, character by character. -/
def toLowerStr (s : String) : String :=
  String.mk (s.toList.map Char.toLower)

/-- Case-insensitive substring test, for FullText fields. -/
def containsCI (hay needle : String) : Bool :=
  substrAux (toLowerStr needle).toList (toLowerStr hay).toList

/-- Whether every character of a nonempty list is a decimal digit. -/
def isDigitRun (cs : List Char) : Bool :=
  !cs.isEmpty && cs.all Char.isDigit

/-- Modelled from the spec: whether a literal lexes as an integer
(spec section 4.2, Numeric literal validation). -/
def isIntLit (s : String) : Bool :=
  match s.toList with
  | '-' :: rest => isDigitRun rest
  | cs => isDigitRun cs

/-- Numeric value of a list of decimal digits. -/
def digitsVal (cs : List Char) : Nat :=
  cs.foldl (fun acc c => acc * 10 + (c.toNat - 48)) 0

/-- Integer value of a literal that lexes as an integer. -/
def parseIntLit (s : String) : Option Int :=
  if isIntLit s then
    match s.toList with
    | '-' :: rest => some (-(Int.ofNat (digitsVal rest)))
    | cs => some (Int.ofNat (digitsVal cs))
  else none

/-- Modelled from the spec: the ExactString field accessor dispatch
of the missing evaluator (spec section 3's accessor list). -/
def getStringField (rv : RecordView) (f : String) : String :=
  match f with
  | "status" => rv.status
  | "priority" => rv.priority
  | "area" => rv.area
  | "assignee" => rv.assignee
  | "recur" => rv.recur
  | "project-id" => rv.projectId
  | _ => ""

/-- Modelled from the spec: the Date field accessor dispatch. -/
def getDateField (rv : RecordView) (f : String) : String :=
  match f with
  | "due-date" => rv.dueDate
  | "start-date" => rv.startDate
  | _ => ""

/-- Modelled from the spec: the Numeric field accessor dispatch. -/
def getNumericField (rv : RecordView) (f : String) : Int :=
  match f with
  | "estimate" => rv.estimate
  | "index-id" => rv.indexId
  | _ => 0

/-- Modelled from the spec: the FullText field accessor dispatch
(`title` reads the title accessor, the rest read the content). -/
def getTextField (rv : RecordView) (f : String) : String :=
  match f with
  | "title" => rv.title
  | "content" | "body" | "text" => rv.content
  | _ => ""

/-- Eq keeps the base match, NotEq negates it (spec section 4.3);
Gt/Lt never reach non-numeric kinds past the parser. -/
def applyOpBool (op : Operator) (base : Bool) : Bool :=
  match op with
  | .eq => base
  | .neq => !base
  | _ => false

/-- Modelled from the spec: ExactString comparison - `empty`/`set`
specials, case-sensitive equality otherwise (spec section 4.3). -/
def matchesExact (fieldVal : String) (op : Operator) (value : String) : Bool :=
  let base :=
    match value with
    | "empty" => fieldVal == ""
    | "set" => fieldVal != ""
    | _ => fieldVal == value
  applyOpBool op base

/-- Modelled from the spec: Date comparison - the special values
delegate to the repository's `denote` date helpers, which the spec's
table describes (`overdue`, `week`, `soon`), `today` compares with
the formatted current day as the scanner's call sites do, and any
other literal is ISO calendar-date string equality. -/
def matchesDate (now : Instant) (cfg : EvalConfig) (fieldVal : String)
    (op : Operator) (value : String) : Bool :=
  let base :=
    match value with
    | "overdue" => IsOverdue now fieldVal
    | "today" => fieldVal == formatCivDate now.date
    | "week" => IsDueThisWeek now fieldVal
    | "soon" => IsDueSoon now fieldVal cfg.soonHorizon
    | "empty" => fieldVal == ""
    | "set" => fieldVal != ""
    | _ => fieldVal == value
  applyOpBool op base

/-- Modelled from the spec: Numeric comparison - integer comparison
per operator; `empty`/`set` test the integer zero value; a
non-integer literal (unreachable past the parser) matches nothing. -/
def matchesNumeric (fieldVal : Int) (op : Operator) (value : String) : Bool :=
  match value with
  | "empty" => applyOpBool op (fieldVal == 0)
  | "set" => applyOpBool op (fieldVal != 0)
  | _ =>
    match parseIntLit value with
    | none => false
    | some n =>
      match op with
      | .eq => fieldVal == n
      | .neq => fieldVal != n
      | .gt => decide (n < fieldVal)
      | .lt => decide (fieldVal < n)

/-- Modelled from the spec: TagSet comparison - true iff the literal
matches any element of the record's tag set (case-sensitive). -/
def matchesTagSet (tags : List String) (op : Operator) (value : String) : Bool :=
  match op with
  | .eq => tags.any (fun t => t == value)
  | _ => false

/-- Modelled from the spec: FullText comparison - case-insensitive
substring search within the corresponding text accessor. -/
def matchesFullText (text : String) (op : Operator) (value : String) : Bool :=
  match op with
  | .eq => containsCI text value
  | _ => false

/-- Modelled from the spec: leaf-comparison evaluation of the
missing evaluator - dispatch on the field's registered kind (spec
section 4.4). -/
def evalComparison (now : Instant) (cfg : EvalConfig) (rv : RecordView)
    (f : String) (op : Operator) (v : String) : Bool :=
  match lookupField f with
  | none => false
  | some fs =>
    match fs.kind with
    | .exactString => matchesExact (getStringField rv f) op v
    | .date => matchesDate now cfg (getDateField rv f) op v
    | .numeric => matchesNumeric (getNumericField rv f) op v
    | .tagSet => matchesTagSet rv.tags op v
    | .fullText => matchesFullText (getTextField rv f) op v

/-- Modelled from the spec: the missing query package's `Evaluate` -
a recursive, total tree walk with short-circuiting `And`/`Or` (spec
section 4.4).  `now` is the ambient wall clock the Go date helpers
read via `time.Now()`. -/
def Evaluate (now : Instant) (cfg : EvalConfig) (rv : RecordView) : Expr → Bool
  | .and a b => if Evaluate now cfg rv a then Evaluate now cfg rv b else false
  | .or a b => if Evaluate now cfg rv a then true else Evaluate now cfg rv b
  | .not e => !Evaluate now cfg rv e
  | .comparison f op v => evalComparison now cfg rv f op v

/-- Modelled from the spec: token kinds of the missing lexer (spec
section 3) - identifiers, the two parentheses, the three boolean
keywords, and the five comparison operator tokens. -/
inductive TokenKind where
  | ident
  | lparen
  | rparen
  | kwAnd
  | kwOr
  | kwNot
  | opColon
  | opEq
  | opNeq
  | opGt
  | opLt
deriving DecidableEq, Repr

/-- Modelled from the spec: a token - kind, raw text and source
offset (spec section 3). -/
structure Token where
  kind : TokenKind
  text : String
  pos : Nat
deriving DecidableEq, Repr

/-- Modelled from the spec: a lexical error - offset and offending
character (spec section 4.1). -/
structure LexError where
  pos : Nat
  ch : Char
deriving DecidableEq, Repr

/-- ASCII whitespace skipped between tokens. -/
def isSpaceChar (c : Char) : Bool :=
  c == ' ' || c == '\t' || c == '\n' || c == '\r'

/-- Characters that can start a comparison operator token. -/
def isOpStart (c : Char) : Bool :=
  c == ':' || c == '=' || c == '!' || c == '>' || c == '<'

/-- Parenthesis characters. -/
def isParenChar (c : Char) : Bool :=
  c == '(' || c == ')'

/-- Identifier characters: any non-whitespace, non-operator,
non-parenthesis, non-quote character (spec section 4.1). -/
def isIdentChar (c : Char) : Bool :=
  !isSpaceChar c && !isOpStart c && !isParenChar c && c != '"'

/-- Keyword classification of a lexed identifier run: `AND`, `OR`,
`NOT` case-insensitively, otherwise a bare identifier. -/
def classifyWord (w : String) : TokenKind :=
  let lower := toLowerStr w
  if lower == "and" then .kwAnd
  else if lower == "or" then .kwOr
  else if lower == "not" then .kwNot
  else .ident

/-- Modelled from the spec: the missing lexer's scanning loop (spec
section 4.1).  `fuel` bounds the iteration count; `tokenize` passes
enough for any input. -/
def lexAux (fuel : Nat) (cs : List Char) (pos : Nat) :
    Except LexError (List Token) :=
  match fuel with
  | 0 => .error ⟨pos, ' '⟩
  | fuel' + 1 =>
    match cs with
    | [] => .ok []
    | c :: rest =>
      if isSpaceChar c then
        lexAux fuel' rest (pos + 1)
      else if c == '(' then do
        let ts ← lexAux fuel' rest (pos + 1)
        .ok (⟨.lparen, "(", pos⟩ :: ts)
      else if c == ')' then do
        let ts ← lexAux fuel' rest (pos + 1)
        .ok (⟨.rparen, ")", pos⟩ :: ts)
      else if c == ':' then do
        let ts ← lexAux fuel' rest (pos + 1)
        .ok (⟨.opColon, ":", pos⟩ :: ts)
      else if c == '=' then do
        let ts ← lexAux fuel' rest (pos + 1)
        .ok (⟨.opEq, "=", pos⟩ :: ts)
      else if c == '>' then do
        let ts ← lexAux fuel' rest (pos + 1)
        .ok (⟨.opGt, ">", pos⟩ :: ts)
      else if c == '<' then do
        let ts ← lexAux fuel' rest (pos + 1)
        .ok (⟨.opLt, "<", pos⟩ :: ts)
      else if c == '!' then
        match rest with
        | '=' :: rest2 => do
          let ts ← lexAux fuel' rest2 (pos + 2)
          .ok (⟨.opNeq, "!=", pos⟩ :: ts)
        | _ => .error ⟨pos, '!'⟩
      else if c == '"' then
        let body := rest.takeWhile (fun x => x != '"')
        match rest.drop body.length with
        | _ :: rest2 => do
          let ts ← lexAux fuel' rest2 (pos + body.length + 2)
          .ok (⟨.ident, String.mk body, pos⟩ :: ts)
        | [] => .error ⟨pos, '"'⟩
      else
        let run := (c :: rest).takeWhile isIdentChar
        let w := String.mk run
        do
          let ts ← lexAux fuel' ((c :: rest).drop run.length) (pos + run.length)
          .ok (⟨classifyWord w, w, pos⟩ :: ts)

/-- Modelled from the spec: `tokenize(input) -> tokens | LexError`
(spec section 4.1). -/
def tokenize (s : String) : Except LexError (List Token) :=
  lexAux (s.length + 1) s.toList 0

/-- Modelled from the spec: the parse error taxonomy of spec
section 7, each carrying the input offset and the relevant
field/token name. -/
inductive ParseError where
  | lexErr (pos : Nat) (ch : Char)
  | unknownField (field : String) (pos : Nat)
  | operatorNotSupported (field : String) (pos : Nat)
  | invalidLiteral (field : String) (value : String) (pos : Nat)
  | unbalancedParens (pos : Nat)
  | unexpectedEndOfInput (pos : Nat)
  | unexpectedToken (text : String) (pos : Nat)
deriving DecidableEq, Repr

/-- Operator denoted by an operator token; `:` and `=` are both
"equals" at parse time (spec section 4.1). -/
def tokOperator (k : TokenKind) : Option Operator :=
  match k with
  | .opColon => some .eq
  | .opEq => some .eq
  | .opNeq => some .neq
  | .opGt => some .gt
  | .opLt => some .lt
  | _ => none

/-- Modelled from the spec: the parse-time semantic checks at each
comparison (spec section 4.2) - unknown field, operator outside the
field's allowed set, and the Numeric literal rule (integer or one of
the special tokens `empty`, `set`). -/
def validateComparison (f : String) (fpos : Nat) (op : Operator)
    (v : String) (vpos : Nat) : Except ParseError Unit :=
  match lookupField f with
  | none => .error (.unknownField f fpos)
  | some fs =>
    if !(fs.ops.contains op) then
      .error (.operatorNotSupported f fpos)
    else if fs.kind == .numeric && !isIntLit v && v != "empty" && v != "set" then
      .error (.invalidLiteral f v vpos)
    else
      .ok ()

/-- Modelled from the spec: the `comparison := FIELD OPERATOR VALUE`
production (spec section 4.2). -/
def parseComparisonE (toks : List Token) :
    Except ParseError (Expr × List Token) :=
  match toks with
  | [] => .error (.unexpectedEndOfInput 0)
  | ⟨.ident, f, fpos⟩ :: rest =>
    match rest with
    | [] => .error (.unexpectedEndOfInput fpos)
    | opTok :: rest2 =>
      match tokOperator opTok.kind with
      | none => .error (.unexpectedToken opTok.text opTok.pos)
      | some op =>
        match rest2 with
        | [] => .error (.unexpectedEndOfInput opTok.pos)
        | ⟨.ident, v, vpos⟩ :: rest3 => do
          validateComparison f fpos op v vpos
          .ok (.comparison f op v, rest3)
        | t :: _ => .error (.unexpectedToken t.text t.pos)
  | t :: _ => .error (.unexpectedToken t.text t.pos)

mutual

/-- Modelled from the spec: `orExpr := andExpr ("OR" andExpr)*`,
left-associative (spec section 4.2). -/
def parseOrE (fuel : Nat) (toks : List Token) :
    Except ParseError (Expr × List Token) :=
  match fuel with
  | 0 => .error (.unexpectedEndOfInput 0)
  | fuel' + 1 => do
    let (left, rest) ← parseAndE fuel' toks
    parseOrRest fuel' left rest

/-- Left-leaning fold of the `("OR" andExpr)*` tail. -/
def parseOrRest (fuel : Nat) (acc : Expr) (toks : List Token) :
    Except ParseError (Expr × List Token) :=
  match fuel with
  | 0 => .error (.unexpectedEndOfInput 0)
  | fuel' + 1 =>
    match toks with
    | ⟨.kwOr, _, _⟩ :: rest => do
      let (right, rest') ← parseAndE fuel' rest
      parseOrRest fuel' (.or acc right) rest'
    | _ => .ok (acc, toks)

/-- Modelled from the spec: `andExpr := notExpr ("AND" notExpr)*`,
left-associative (spec section 4.2). -/
def parseAndE (fuel : Nat) (toks : List Token) :
    Except ParseError (Expr × List Token) :=
  match fuel with
  | 0 => .error (.unexpectedEndOfInput 0)
  | fuel' + 1 => do
    let (left, rest) ← parseNotE fuel' toks
    parseAndRest fuel' left rest

/-- Left-leaning fold of the `("AND" notExpr)*` tail. -/
def parseAndRest (fuel : Nat) (acc : Expr) (toks : List Token) :
    Except ParseError (Expr × List Token) :=
  match fuel with
  | 0 => .error (.unexpectedEndOfInput 0)
  | fuel' + 1 =>
    match toks with
    | ⟨.kwAnd, _, _⟩ :: rest => do
      let (right, rest') ← parseNotE fuel' rest
      parseAndRest fuel' (.and acc right) rest'
    | _ => .ok (acc, toks)

/-- Modelled from the spec: `notExpr := "NOT" notExpr | primary`,
right-associative (spec section 4.2). -/
def parseNotE (fuel : Nat) (toks : List Token) :
    Except ParseError (Expr × List Token) :=
  match fuel with
  | 0 => .error (.unexpectedEndOfInput 0)
  | fuel' + 1 =>
    match toks with
    | ⟨.kwNot, _, _⟩ :: rest => do
      let (inner, rest') ← parseNotE fuel' rest
      .ok (.not inner, rest')
    | _ => parsePrimaryE fuel' toks

/-- Modelled from the spec: `primary := "(" expr ")" | comparison`
(spec section 4.2). -/
def parsePrimaryE (fuel : Nat) (toks : List Token) :
    Except ParseError (Expr × List Token) :=
  match fuel with
  | 0 => .error (.unexpectedEndOfInput 0)
  | fuel' + 1 =>
    match toks with
    | ⟨.lparen, _, p⟩ :: rest => do
      let (inner, rest') ← parseOrE fuel' rest
      match rest' with
      | ⟨.rparen, _, _⟩ :: rest2 => .ok (inner, rest2)
      | _ => .error (.unbalancedParens p)
    | _ => parseComparisonE toks

end

/-- Modelled from the spec: the missing query package's
`Parse(query) -> Result<Expr, ParseError>` entry point (spec
section 6): tokenize, parse an `expr`, and require the whole token
stream to be consumed (a leftover `)` is unbalanced parentheses; any
other leftover token - e.g. two adjacent comparisons with no
connective - is an unexpected token). -/
def Parse (s : String) : Except ParseError Expr :=
  match tokenize s with
  | .error e => .error (.lexErr e.pos e.ch)
  | .ok toks =>
    match parseOrE (4 * toks.length + 4) toks with
    | .error e => .error e
    | .ok (e, []) => .ok e
    | .ok (_, ⟨.rparen, _, p⟩ :: _) => .error (.unbalancedParens p)
    | .ok (_, t :: _) => .error (.unexpectedToken t.text t.pos)

deriving instance DecidableEq for Except

theorem daysInYear_ge (y : Nat) : 365 ≤ daysInYear y ∧ daysInYear y ≤ 366 := by
  unfold daysInYear; split <;> omega

theorem isLeap_iff (y : Nat) :
    isLeap y = true ↔ (y % 4 = 0 ∧ (y % 100 ≠ 0 ∨ y % 400 = 0)) := by
  simp [isLeap]

set_option maxHeartbeats 2000000 in
theorem daysBeforeYear_step (y : Nat) :
    daysBeforeYear (y + 1) = daysBeforeYear y + daysInYear y := by
  by_cases hL : isLeap y = true
  · have h := (isLeap_iff y).mp hL
    simp only [daysBeforeYear, daysInYear, hL, if_true]
    omega
  · have hLf : isLeap y = false := by revert hL; cases isLeap y <;> simp
    have h : ¬(y % 4 = 0 ∧ (y % 100 ≠ 0 ∨ y % 400 = 0)) := by
      rw [← isLeap_iff, hLf]; simp
    simp only [daysBeforeYear, daysInYear, hLf, Bool.false_eq_true, if_false]
    omega

theorem daysBeforeYear_le (y1 y2 : Nat) (h : y1 < y2) :
    daysBeforeYear y1 + daysInYear y1 ≤ daysBeforeYear y2 := by
  induction y2 with
  | zero => omega
  | succ n ih =>
    rcases Nat.lt_succ_iff_lt_or_eq.mp h with h' | h'
    · have h1 := ih h'
      have h2 := daysBeforeYear_step n
      have h3 := daysInYear_ge n
      omega
    · subst h'
      exact (daysBeforeYear_step y1).symm.le

theorem dayOfYear_ub (y m d : Nat) (hm1 : 1 ≤ m) (hm2 : m ≤ 12)
    (hd1 : 1 ≤ d) (hd2 : d ≤ daysInMonth y m) :
    daysBeforeMonth y m + (d - 1) < daysInYear y := by
  by_cases hL : isLeap y = true <;>
    [skip; (have hLf : isLeap y = false := by revert hL; cases isLeap y <;> simp)]
  · interval_cases m <;>
      simp only [daysBeforeMonth, daysInMonth, daysInYear, hL, if_true] at hd2 ⊢ <;>
        omega
  · interval_cases m <;>
      simp only [daysBeforeMonth, daysInMonth, daysInYear, hLf,
        Bool.false_eq_true, if_false] at hd2 ⊢ <;>
        omega

set_option maxHeartbeats 2000000 in
theorem dayOfYear_lt (y m1 d1 m2 d2 : Nat)
    (hm1 : 1 ≤ m1) (hm2 : m1 ≤ 12) (hd1 : 1 ≤ d1) (hd2 : d1 ≤ daysInMonth y m1)
    (hn1 : 1 ≤ m2) (hn2 : m2 ≤ 12) (he1 : 1 ≤ d2) (he2 : d2 ≤ daysInMonth y m2)
    (hlt : m1 < m2 ∨ (m1 = m2 ∧ d1 < d2)) :
    daysBeforeMonth y m1 + (d1 - 1) < daysBeforeMonth y m2 + (d2 - 1) := by
  by_cases hL : isLeap y = true <;>
    [skip; (have hLf : isLeap y = false := by revert hL; cases isLeap y <;> simp)]
  · interval_cases m1 <;> interval_cases m2 <;>
      simp only [daysBeforeMonth, daysInMonth, hL, if_true] at hd2 he2 hlt ⊢ <;>
        omega
  · interval_cases m1 <;> interval_cases m2 <;>
      simp only [daysBeforeMonth, daysInMonth, hLf,
        Bool.false_eq_true, if_false] at hd2 he2 hlt ⊢ <;>
        omega

theorem toDays_lt_of_before (d1 d2 : CivDate) (h1 : d1.Valid) (h2 : d2.Valid)
    (h : d1.before d2) : toDays d1 < toDays d2 := by
  obtain ⟨y1, m1, a1⟩ := d1
  obtain ⟨y2, m2, a2⟩ := d2
  simp only [CivDate.Valid] at h1 h2
  simp only [CivDate.before] at h
  simp only [toDays]
  rcases h with hy | ⟨hy, hrest⟩
  · have hub := dayOfYear_ub y1 m1 a1 h1.1 h1.2.1 h1.2.2.1 h1.2.2.2
    have hle := daysBeforeYear_le y1 y2 hy
    omega
  · subst hy
    have := dayOfYear_lt y1 m1 a1 m2 a2 h1.1 h1.2.1 h1.2.2.1 h1.2.2.2
      h2.1 h2.2.1 h2.2.2.1 h2.2.2.2 hrest
    omega

theorem before_iff_toDays_lt (d1 d2 : CivDate) (h1 : d1.Valid) (h2 : d2.Valid) :
    d1.before d2 ↔ toDays d1 < toDays d2 := by
  constructor
  · exact toDays_lt_of_before d1 d2 h1 h2
  · intro hlt
    by_contra hnb
    have htri : d2.before d1 ∨ d1 = d2 := by
      obtain ⟨y1, m1, a1⟩ := d1
      obtain ⟨y2, m2, a2⟩ := d2
      simp only [CivDate.before, CivDate.mk.injEq] at hnb ⊢
      omega
    rcases htri with hb | he
    · have := toDays_lt_of_before d2 d1 h2 h1 hb
      omega
    · subst he
      omega

theorem day_quot (a b : Nat) :
    ((24 * (a : Int) - 24 * (b : Int)) / 24) = (a : Int) - b := by
  omega

theorem parseDate_empty : parseDate "" = none := rfl

theorem parseDate_ne_empty {s : String} {d : CivDate} (h : parseDate s = some d) :
    s ≠ "" := by
  intro he
  rw [he, parseDate_empty] at h
  exact Option.noConfusion h

theorem parseDate_valid {s : String} {d : CivDate} (h : parseDate s = some d) :
    d.Valid := by
  unfold parseDate at h
  split at h
  · split at h
    · simp only [Option.bind_eq_bind, Option.bind_eq_some, Option.ite_none_right_eq_some,
        Option.some.injEq] at h
      obtain ⟨v1, hv1, v2, hv2, v3, hv3, v4, hv4, v5, hv5, v6, hv6, v7, hv7, v8, hv8,
        hval, hd⟩ := h
      subst hd
      exact ⟨hval.1, hval.2.1, hval.2.2.1, hval.2.2.2⟩
    · exact Option.noConfusion h
  · exact Option.noConfusion h

theorem IsOverdue_parse_some (now : Instant) {s : String} {d : CivDate}
    (h : parseDate s = some d) :
    IsOverdue now s = decide (toDays d < toDays now.date) := by
  unfold IsOverdue
  rw [if_neg (parseDate_ne_empty h), h]

/-- Spec-side quantity for the date windows: the number of whole
calendar days from today to the due date (negative when the due date
is past). -/
def wholeDaysFromToday (today due : CivDate) : Int :=
  (toDays due : Int) - (toDays today : Int)
/-- C1: for a due-date string that parses as an ISO calendar date,
`overdue` matches exactly when the parsed calendar day is strictly
before today's calendar day; the time of day is ignored (any two
instants on the same calendar day agree), and the record's status
does not enter the comparison (`IsOverdue` reads nothing but the
date string and the clock). -/
theorem overdue_pure_calendar_comparison (now n2 : Instant) (s : String)
    (d : CivDate) (hval : now.date.Valid) (hp : parseDate s = some d)
    (hsame : n2.date = now.date) :
    (IsOverdue now s = true ↔ d.before now.date) ∧ IsOverdue n2 s = IsOverdue now s := by
  constructor
  · rw [IsOverdue_parse_some now hp]
    simp only [decide_eq_true_eq]
    exact (before_iff_toDays_lt d now.date (parseDate_valid hp) hval).symm
  · unfold IsOverdue
    rw [hsame]

/-- Witness for C1 at a concrete date pair: due 2024-05-19, today
2024-05-20 at two different minutes of the day. -/
theorem overdue_pure_calendar_comparison_witness :
    (IsOverdue ⟨⟨2024, 5, 20⟩, 100⟩ "2024-05-19" = true ↔
      CivDate.before ⟨2024, 5, 19⟩ ⟨2024, 5, 20⟩) ∧
    IsOverdue ⟨⟨2024, 5, 20⟩, 900⟩ "2024-05-19" =
      IsOverdue ⟨⟨2024, 5, 20⟩, 100⟩ "2024-05-19" :=
  overdue_pure_calendar_comparison ⟨⟨2024, 5, 20⟩, 100⟩ ⟨⟨2024, 5, 20⟩, 900⟩
    "2024-05-19" ⟨2024, 5, 19⟩ (by decide) (by decide) rfl

/-- C2 counterexample: on the empty date string and on a malformed
date string, the `week` check (`IsDueThisWeek`) evaluates to `true`,
not `false` as the claim states: `DaysUntilDue` falls back to 0 on
unparseable input and 0 lies inside the `[0, 7]` window. -/
theorem week_special_empty_matches_cex :
    IsDueThisWeek ⟨⟨2024, 5, 20⟩, 0⟩ "" = true ∧
    IsDueThisWeek ⟨⟨2024, 5, 20⟩, 0⟩ "not-a-date" = true ∧
    parseDate "not-a-date" = none := by
  decide

/-- C2 amended: for a date string that is empty or does not parse as
an ISO calendar date, `overdue` and `soon` evaluate to false and
`DaysUntilDue` returns 0, but `week` evaluates to true (0 lies in
its `[0, 7]` window). -/
theorem malformed_date_overdue_soon_false_week_true (now : Instant)
    (h : Int) (s : String) (hp : parseDate s = none) :
    IsOverdue now s = false ∧ IsDueSoon now s h = false ∧
    DaysUntilDue now s = 0 ∧ IsDueThisWeek now s = true := by
  by_cases hs : s = ""
  · subst hs
    refine ⟨by simp [IsOverdue], by simp [IsDueSoon], by simp [DaysUntilDue], ?_⟩
    simp [IsDueThisWeek, DaysUntilDue]
  · refine ⟨?_, ?_, ?_, ?_⟩ <;>
      simp [IsOverdue, IsDueSoon, DaysUntilDue, IsDueThisWeek, hs, hp]

/-- Witness for the amended C2 at the empty string and a concrete
clock and horizon. -/
theorem malformed_date_overdue_soon_false_week_true_witness :
    IsOverdue ⟨⟨2024, 5, 20⟩, 0⟩ "" = false ∧
    IsDueSoon ⟨⟨2024, 5, 20⟩, 0⟩ "" 5 = false ∧
    DaysUntilDue ⟨⟨2024, 5, 20⟩, 0⟩ "" = 0 ∧
    IsDueThisWeek ⟨⟨2024, 5, 20⟩, 0⟩ "" = true :=
  malformed_date_overdue_soon_false_week_true ⟨⟨2024, 5, 20⟩, 0⟩ 5 "" (by decide)

/-- C4: for a due-date string that parses as an ISO calendar date
and any horizon h, `soon` matches exactly when the number of whole
calendar days from today to the due date is at least 0 and at most
h. -/
theorem soon_matches_horizon_window (now : Instant) (h : Int) (s : String)
    (d : CivDate) (hp : parseDate s = some d) :
    IsDueSoon now s h = true ↔
      (0 ≤ wholeDaysFromToday now.date d ∧ wholeDaysFromToday now.date d ≤ h) := by
  unfold IsDueSoon
  rw [if_neg (parseDate_ne_empty hp), hp]
  simp only [day_quot, wholeDaysFromToday, decide_eq_true_eq]

/-- Witness for C4: due 2024-05-25 is 5 whole days from 2024-05-20,
inside a 5-day horizon. -/
theorem soon_matches_horizon_window_witness :
    IsDueSoon ⟨⟨2024, 5, 20⟩, 0⟩ "2024-05-25" 5 = true ↔
      (0 ≤ wholeDaysFromToday ⟨2024, 5, 20⟩ ⟨2024, 5, 25⟩ ∧
        wholeDaysFromToday ⟨2024, 5, 20⟩ ⟨2024, 5, 25⟩ ≤ 5) :=
  soon_matches_horizon_window ⟨⟨2024, 5, 20⟩, 0⟩ 5 "2024-05-25" ⟨2024, 5, 25⟩
    (by decide)

/-- C5: for a due-date string that parses as an ISO calendar date,
`week` matches exactly when the number of whole calendar days from
today to the due date is at least 0 and at most 7. -/
theorem week_matches_seven_day_window (now : Instant) (s : String)
    (d : CivDate) (hp : parseDate s = some d) :
    IsDueThisWeek now s = true ↔
      (0 ≤ wholeDaysFromToday now.date d ∧ wholeDaysFromToday now.date d ≤ 7) := by
  unfold IsDueThisWeek DaysUntilDue
  rw [if_neg (parseDate_ne_empty hp), hp]
  simp only [day_quot, wholeDaysFromToday, decide_eq_true_eq]

/-- Witness for C5: due 2024-05-27 is 7 whole days from 2024-05-20. -/
theorem week_matches_seven_day_window_witness :
    IsDueThisWeek ⟨⟨2024, 5, 20⟩, 0⟩ "2024-05-27" = true ↔
      (0 ≤ wholeDaysFromToday ⟨2024, 5, 20⟩ ⟨2024, 5, 27⟩ ∧
        wholeDaysFromToday ⟨2024, 5, 20⟩ ⟨2024, 5, 27⟩ ≤ 7) :=
  week_matches_seven_day_window ⟨⟨2024, 5, 20⟩, 0⟩ "2024-05-27" ⟨2024, 5, 27⟩
    (by decide)
theorem IsOverdue_parse_none (now : Instant) {s : String}
    (h : parseDate s = none) : IsOverdue now s = false := by
  by_cases hs : s = "" <;> simp [IsOverdue, hs, h]

/-- Claim-side predicate for the "overdue" filter, phrased from the
claim's words: due date non-empty, due date denoting a calendar day
strictly before today, status not "done". -/
def overdueClaim (today : CivDate) (t : Denote.Task) : Bool :=
  t.dueDate != "" &&
    (match parseDate t.dueDate with
     | some d => decide (d.before today)
     | none => false) &&
    t.status != "done"

/-- C6: FilterTasks with filterType "overdue" applies the completion
exclusion as a separate conjunct on top of the pure date comparison:
it returns exactly the input tasks, in input order, whose due date
is non-empty, denotes a calendar day strictly before today, and
whose status is not "done". -/
theorem filter_overdue_separate_exclusion (now : Instant)
    (tasks : List Denote.Task) (v : String) (hval : now.date.Valid) :
    Denote.FilterTasks now tasks "overdue" v =
      tasks.filter (overdueClaim now.date) := by
  simp only [Denote.FilterTasks]
  apply List.filter_congr
  intro t _
  unfold overdueClaim
  rcases hpd : parseDate t.dueDate with _ | d
  · rw [IsOverdue_parse_none now hpd]
  · rw [IsOverdue_parse_some now hpd,
      decide_eq_decide.mpr (before_iff_toDays_lt d now.date (parseDate_valid hpd) hval).symm]

/-- Witness for C6 at a concrete task list: one overdue open task
(kept), one overdue done task (dropped), one not-yet-due task
(dropped), one with an empty due date (dropped). -/
theorem filter_overdue_separate_exclusion_witness :
    Denote.FilterTasks ⟨⟨2024, 5, 20⟩, 0⟩
        [⟨"open", "p1", "2024-05-19", "", 0, "", ""⟩,
         ⟨"done", "p1", "2024-05-19", "", 0, "", ""⟩,
         ⟨"open", "p1", "2024-05-21", "", 0, "", ""⟩,
         ⟨"open", "p1", "", "", 0, "", ""⟩] "overdue" "" =
      List.filter (overdueClaim ⟨2024, 5, 20⟩)
        [⟨"open", "p1", "2024-05-19", "", 0, "", ""⟩,
         ⟨"done", "p1", "2024-05-19", "", 0, "", ""⟩,
         ⟨"open", "p1", "2024-05-21", "", 0, "", ""⟩,
         ⟨"open", "p1", "", "", 0, "", ""⟩] :=
  filter_overdue_separate_exclusion ⟨⟨2024, 5, 20⟩, 0⟩ _ "" (by decide)

/-- C9: FilterTasks returns its input unchanged for "all", the empty
list for every filterType outside the recognized set, and always a
subsequence of its input (the input list itself is never modified -
the embedding is pure and each branch only reads it). -/
theorem filter_all_id_unknown_empty_sublist (now : Instant)
    (tasks : List Denote.Task) (v ftu ft : String)
    (hftu : ftu ∉ ["all", "open", "done", "active", "area", "project",
      "overdue", "today", "week", "priority"]) :
    Denote.FilterTasks now tasks "all" v = tasks ∧
    Denote.FilterTasks now tasks ftu v = [] ∧
    (Denote.FilterTasks now tasks ft v).Sublist tasks := by
  refine ⟨rfl, ?_, ?_⟩
  · simp only [List.mem_cons, List.not_mem_nil, or_false] at hftu
    push_neg at hftu
    rw [Denote.FilterTasks.eq_def]
    split <;> simp_all
  · rw [Denote.FilterTasks.eq_def]
    split <;>
      first
        | exact List.Sublist.refl tasks
        | exact List.filter_sublist tasks
        | exact List.nil_sublist tasks

/-- Witness for C9: a one-task list with the unrecognized filterType
"bogus" and the recognized filterType "open". -/
theorem filter_all_id_unknown_empty_sublist_witness :
    Denote.FilterTasks ⟨⟨2024, 5, 20⟩, 0⟩
        [⟨"open", "p1", "", "", 0, "", ""⟩] "all" "" =
      [⟨"open", "p1", "", "", 0, "", ""⟩] ∧
    Denote.FilterTasks ⟨⟨2024, 5, 20⟩, 0⟩
        [⟨"open", "p1", "", "", 0, "", ""⟩] "bogus" "" = [] ∧
    (Denote.FilterTasks ⟨⟨2024, 5, 20⟩, 0⟩
        [⟨"open", "p1", "", "", 0, "", ""⟩] "open" "").Sublist
      [⟨"open", "p1", "", "", 0, "", ""⟩] :=
  filter_all_id_unknown_empty_sublist ⟨⟨2024, 5, 20⟩, 0⟩ _ "" "bogus" "open"
    (by decide)

/-- C10: IsValidEstimate accepts exactly the Fibonacci set
{1, 2, 3, 5, 8, 13}; UpdateTaskEstimate on a successfully parsed
task rejects every non-zero estimate outside that set and accepts 0
and every member, writing the new estimate. -/
theorem estimate_fibonacci_validation (e1 e2 e3 : Int) (t : Denote.Task)
    (hbad : e1 ≠ 0) (hbad2 : IsValidEstimate e1 = false)
    (hok : e2 = 0 ∨ IsValidEstimate e2 = true) :
    (IsValidEstimate e3 = true ↔
      (e3 = 1 ∨ e3 = 2 ∨ e3 = 3 ∨ e3 = 5 ∨ e3 = 8 ∨ e3 = 13)) ∧
    Denote.UpdateTaskEstimate (some t) e1 =
      .error "invalid estimate (must be 0, 1, 2, 3, 5, 8, or 13)" ∧
    Denote.UpdateTaskEstimate (some t) e2 = .ok { t with estimate := e2 } := by
  refine ⟨?_, ?_, ?_⟩
  · simp [IsValidEstimate]
  · simp [Denote.UpdateTaskEstimate, hbad, hbad2]
  · rcases hok with hz | hv
    · subst hz
      simp [Denote.UpdateTaskEstimate]
    · simp [Denote.UpdateTaskEstimate, hv]

/-- Witness for C10: estimate 4 is rejected, estimate 8 is accepted,
and 13 is in the valid set. -/
theorem estimate_fibonacci_validation_witness :
    (IsValidEstimate 13 = true ↔
      ((13 : Int) = 1 ∨ (13 : Int) = 2 ∨ (13 : Int) = 3 ∨ (13 : Int) = 5 ∨
        (13 : Int) = 8 ∨ (13 : Int) = 13)) ∧
    Denote.UpdateTaskEstimate (some ⟨"open", "p1", "", "", 3, "", ""⟩) 4 =
      .error "invalid estimate (must be 0, 1, 2, 3, 5, 8, or 13)" ∧
    Denote.UpdateTaskEstimate (some ⟨"open", "p1", "", "", 3, "", ""⟩) 8 =
      .ok ⟨"open", "p1", "", "", 8, "", ""⟩ :=
  estimate_fibonacci_validation 4 8 13 ⟨"open", "p1", "", "", 3, "", ""⟩
    (by decide) (by decide) (Or.inr (by decide))
theorem IsOverdue_day_congr (n1 n2 : Instant) (h : n1.date = n2.date)
    (s : String) : IsOverdue n1 s = IsOverdue n2 s := by
  unfold IsOverdue; rw [h]

theorem DaysUntilDue_day_congr (n1 n2 : Instant) (h : n1.date = n2.date)
    (s : String) : DaysUntilDue n1 s = DaysUntilDue n2 s := by
  unfold DaysUntilDue; rw [h]

theorem IsDueSoon_day_congr (n1 n2 : Instant) (h : n1.date = n2.date)
    (s : String) (hor : Int) : IsDueSoon n1 s hor = IsDueSoon n2 s hor := by
  unfold IsDueSoon; rw [h]

theorem IsDueThisWeek_day_congr (n1 n2 : Instant) (h : n1.date = n2.date)
    (s : String) : IsDueThisWeek n1 s = IsDueThisWeek n2 s := by
  unfold IsDueThisWeek; rw [DaysUntilDue_day_congr n1 n2 h s]

theorem evalComparison_day_congr (n1 n2 : Instant) (h : n1.date = n2.date)
    (cfg : EvalConfig) (rv : RecordView) (f : String) (op : Operator)
    (v : String) :
    evalComparison n1 cfg rv f op v = evalComparison n2 cfg rv f op v := by
  unfold evalComparison
  rcases hf : lookupField f with _ | fs
  · rfl
  · obtain ⟨kind, ops⟩ := fs
    cases kind <;>
      simp [matchesDate, IsOverdue_day_congr n1 n2 h, IsDueSoon_day_congr n1 n2 h,
        IsDueThisWeek_day_congr n1 n2 h, h]

/-- C3 counterexample: two evaluations of the same (Expr,
RecordView, EvalConfig) triple return different booleans when the
ambient clock day differs, because the date helpers the evaluator
relies on read the current time: `due-date:overdue` on a record due
2020-06-15 is false on 2020-06-15 and true on 2020-06-16. -/
theorem evaluate_clock_dependent_cex :
    Evaluate ⟨⟨2020, 6, 15⟩, 0⟩ ⟨3⟩
        ⟨"open", "p1", "", "", "", "", "", "", "2020-06-15", "", 0, 0, []⟩
        (.comparison "due-date" .eq "overdue") ≠
      Evaluate ⟨⟨2020, 6, 16⟩, 0⟩ ⟨3⟩
        ⟨"open", "p1", "", "", "", "", "", "", "2020-06-15", "", 0, 0, []⟩
        (.comparison "due-date" .eq "overdue") := by
  decide

/-- C3 amended: Evaluate is a pure function of (Expr, RecordView,
EvalConfig) and the current calendar day: evaluations at any two
clock instants falling on the same calendar day return the same
boolean, with no retained state between calls. -/
theorem evaluate_pure_given_day (e : Expr) (cfg : EvalConfig)
    (rv : RecordView) (n1 n2 : Instant) (h : n1.date = n2.date) :
    Evaluate n1 cfg rv e = Evaluate n2 cfg rv e := by
  induction e with
  | and a b iha ihb => simp [Evaluate, iha, ihb]
  | or a b iha ihb => simp [Evaluate, iha, ihb]
  | not a iha => simp [Evaluate, iha]
  | comparison f op v => exact evalComparison_day_congr n1 n2 h cfg rv f op v

/-- Witness for the amended C3: the same query, record and config at
two instants of the same day (minute 10 and minute 1200). -/
theorem evaluate_pure_given_day_witness :
    Evaluate ⟨⟨2020, 6, 16⟩, 10⟩ ⟨3⟩
        ⟨"open", "p1", "", "", "", "", "", "", "2020-06-15", "", 0, 0, []⟩
        (.comparison "due-date" .eq "overdue") =
      Evaluate ⟨⟨2020, 6, 16⟩, 1200⟩ ⟨3⟩
        ⟨"open", "p1", "", "", "", "", "", "", "2020-06-15", "", 0, 0, []⟩
        (.comparison "due-date" .eq "overdue") :=
  evaluate_pure_given_day (.comparison "due-date" .eq "overdue") ⟨3⟩
    ⟨"open", "p1", "", "", "", "", "", "", "2020-06-15", "", 0, 0, []⟩
    ⟨⟨2020, 6, 16⟩, 10⟩ ⟨⟨2020, 6, 16⟩, 1200⟩ rfl

/-- C7: OR binds lower than AND - the unparenthesized and the
parenthesized queries parse to trees that evaluate identically
against every record, config and clock (the claim's schematic fields
a, b, c are instantiated with the registered fields status,
priority, area, since the registry rejects unregistered names at
parse time). -/
theorem or_lower_precedence_than_and (now : Instant) (cfg : EvalConfig)
    (rv : RecordView) (t1 t2 : Expr)
    (h1 : Parse "status:1 OR priority:2 AND area:3" = .ok t1)
    (h2 : Parse "status:1 OR (priority:2 AND area:3)" = .ok t2) :
    Evaluate now cfg rv t1 = Evaluate now cfg rv t2 := by
  have e1 : Parse "status:1 OR priority:2 AND area:3" =
      .ok (.or (.comparison "status" .eq "1")
        (.and (.comparison "priority" .eq "2") (.comparison "area" .eq "3"))) := by
    decide
  have e2 : Parse "status:1 OR (priority:2 AND area:3)" =
      .ok (.or (.comparison "status" .eq "1")
        (.and (.comparison "priority" .eq "2") (.comparison "area" .eq "3"))) := by
    decide
  rw [h1] at e1
  rw [h2] at e2
  injection e1 with e1'
  injection e2 with e2'
  subst e1'
  subst e2'
  rfl

/-- Witness for C7: both parses succeed with the same tree, checked
against a concrete record. -/
theorem or_lower_precedence_than_and_witness :
    Evaluate ⟨⟨2024, 5, 20⟩, 0⟩ ⟨14⟩
        ⟨"1", "2", "3", "", "", "", "", "", "", "", 0, 0, []⟩
        (.or (.comparison "status" .eq "1")
          (.and (.comparison "priority" .eq "2") (.comparison "area" .eq "3"))) =
      Evaluate ⟨⟨2024, 5, 20⟩, 0⟩ ⟨14⟩
        ⟨"1", "2", "3", "", "", "", "", "", "", "", 0, 0, []⟩
        (.or (.comparison "status" .eq "1")
          (.and (.comparison "priority" .eq "2") (.comparison "area" .eq "3"))) :=
  or_lower_precedence_than_and ⟨⟨2024, 5, 20⟩, 0⟩ ⟨14⟩
    ⟨"1", "2", "3", "", "", "", "", "", "", "", 0, 0, []⟩ _ _
    (by decide) (by decide)

/-- C8: the parser's comparison validation rejects an unknown field
with UnknownField, an operator outside the field's allowed set with
OperatorNotSupported, and a Numeric literal that is neither an
integer nor `empty`/`set` with InvalidLiteral; end to end, Parse
returns an error rather than an Expr on concrete queries exhibiting
each case. -/
theorem parse_rejects_invalid_comparisons
    (f1 f2 f3 v1 v2 : String) (op1 op2 : Operator)
    (p1 p2 p3 p4 p5 p6 : Nat) (fs2 fs3 : FieldSpec)
    (h1 : lookupField f1 = none)
    (h2 : lookupField f2 = some fs2) (h2b : fs2.ops.contains op1 = false)
    (h3 : lookupField f3 = some fs3) (h3k : fs3.kind = .numeric)
    (h3o : fs3.ops.contains op2 = true)
    (h3i : isIntLit v2 = false) (h3e : v2 ≠ "empty") (h3s : v2 ≠ "set") :
    validateComparison f1 p1 op1 v1 p2 = .error (.unknownField f1 p1) ∧
    validateComparison f2 p3 op1 v1 p4 = .error (.operatorNotSupported f2 p3) ∧
    validateComparison f3 p5 op2 v2 p6 = .error (.invalidLiteral f3 v2 p6) ∧
    Parse "zzz:1" = .error (.unknownField "zzz" 0) ∧
    Parse "status>open" = .error (.operatorNotSupported "status" 0) ∧
    Parse "estimate:abc" = .error (.invalidLiteral "estimate" "abc" 9) := by
  refine ⟨?_, ?_, ?_, by decide, by decide, by decide⟩
  · unfold validateComparison
    rw [h1]
  · unfold validateComparison
    rw [h2]
    have hm : op1 ∉ fs2.ops := by simpa using h2b
    simp [hm]
  · unfold validateComparison
    rw [h3]
    have hm : op2 ∈ fs3.ops := by simpa using h3o
    simp [hm, h3k, h3i, h3e, h3s]

/-- Witness for C8: field zzz is unknown; `>` is not allowed on the
ExactString field status; `abc` is not an integer literal for the
Numeric field estimate. -/
theorem parse_rejects_invalid_comparisons_witness :
    validateComparison "zzz" 0 .eq "1" 4 = .error (.unknownField "zzz" 0) ∧
    validateComparison "status" 0 .gt "open" 7 =
      .error (.operatorNotSupported "status" 0) ∧
    validateComparison "estimate" 0 .eq "abc" 9 =
      .error (.invalidLiteral "estimate" "abc" 9) ∧
    Parse "zzz:1" = .error (.unknownField "zzz" 0) ∧
    Parse "status>open" = .error (.operatorNotSupported "status" 0) ∧
    Parse "estimate:abc" = .error (.invalidLiteral "estimate" "abc" 9) :=
  parse_rejects_invalid_comparisons "zzz" "status" "estimate" "1" "abc"
    .gt .eq 0 4 0 7 0 9 ⟨.exactString, [.eq, .neq]⟩ ⟨.numeric, [.eq, .neq, .gt, .lt]⟩
    (by decide) (by decide) (by decide) (by decide) (by decide) (by decide)
    (by decide) (by decide) (by decide)
